import Mathlib

/-!
Shallow embedding of the `git-summary` tool (files `src/gitsum.py` and
`src/lib/gitsum.py`) and verification of its specification.

Python strings are modelled as `String` (a list of characters), Python
non-negative commit counts as `Nat`, filesystem trees as the inductive
`FSEntry`, and a repository's observable state (as seen through the
pygit2 library calls the code makes) as the structure `GitRepo`.
Standard-error output is modelled as an explicit list of warning lines,
and an uncaught Python exception as an explicit crash flag.
-/

/-- Mirrors the `RepoStatus` dataclass, which is textually identical in
`src/gitsum.py` (lines 14-35) and `src/lib/gitsum.py` (lines 14-35). -/
structure RepoStatus where
  name : String
  head : String
  is_local : Bool
  has_changes : Bool
  branch_has_upstream : Bool
  local_ahead : Nat
  local_behind : Nat
deriving DecidableEq

/-- `RepoStatus.is_up_to_date` (src/lib/gitsum.py lines 24-29). -/
def RepoStatus.is_up_to_date (s : RepoStatus) : Bool :=
  !s.has_changes && (!s.branch_has_upstream || (s.local_ahead == 0 && s.local_behind == 0))

/-- Python left-justified padding `f"\x7bs:<\x7bw\x7d\x7d"`: pad `s` with spaces on the
right up to width `w`; a string already at least `w` long is unchanged
(truncated subtraction gives zero padding). -/
def padColumn (s : String) (w : Nat) : String :=
  s ++ String.mk (List.replicate (w - s.length) ' ')

/-- The ahead column of `RepoStatus.to_string`:
`f" >\x7bn\x7d"` when `n > 0`, else three spaces. -/
def aheadField (n : Nat) : String :=
  if n > 0 then " >" ++ toString n else "   "

/-- The behind column of `RepoStatus.to_string`:
`f" <\x7bn\x7d"` when `n > 0`, else three spaces. -/
def behindField (n : Nat) : String :=
  if n > 0 then " <" ++ toString n else "   "

/-- The tag column of `RepoStatus.to_string`: `"[LR]"` for a local
repository, `"[LB]"` for a local branch (no upstream), else four spaces. -/
def tagField (is_local branch_has_upstream : Bool) : String :=
  if is_local then "[LR]" else if !branch_has_upstream then "[LB]" else "    "

/-- `RepoStatus.to_string` (src/lib/gitsum.py lines 31-32): the single
f-string, decomposed into the fields above in source order. -/
def RepoStatus.to_string (s : RepoStatus) (name_width head_width : Nat) : String :=
  (if !s.is_up_to_date then "!" else " ") ++ "  " ++
    padColumn s.name name_width ++ "  " ++
    tagField s.is_local s.branch_has_upstream ++ "  " ++
    padColumn s.head head_width ++ " " ++
    (if s.has_changes then " *" else "  ") ++
    aheadField s.local_ahead ++ behindField s.local_behind

/-- A filesystem tree. `dir name isRepoRoot children` models a directory for
which `pygit2.discover_repository` reports a repository exactly when
`isRepoRoot` is true (the scanned root is assumed not to live inside some
repository higher up, so during the traversal the upward marker search
succeeds exactly at repository roots); `file` models any non-directory
entry (`os.path.isdir` false). -/
inductive FSEntry where
  | file (name : String)
  | dir (name : String) (isRepoRoot : Bool) (children : List FSEntry)

/-- The entry's own name (final path component). -/
def FSEntry.name : FSEntry → String
  | .file n => n
  | .dir n _ _ => n

/-- `pat.isPrefixOf l || ...` scan: does `pat` occur as a contiguous
sublist of the second argument?  Models Python's `pat in s` on strings. -/
def hasSubstr (pat : List Char) : List Char → Bool
  | [] => pat.isEmpty
  | c :: cs => pat.isPrefixOf (c :: cs) || hasSubstr pat cs

/-- Python's substring test `pat in s`. -/
def strIn (pat s : String) : Bool :=
  hasSubstr pat.data s.data

/-- `_do_get_git_repos` (src/lib/gitsum.py lines 46-62).  The `path`
argument is `str(dir)`; discovered repositories are represented by the
path at which they were found.  Paths of children extend the parent path
with a separator, as `Path.iterdir` does. -/
def _do_get_git_repos (path : String) (t : FSEntry) : List String × List String :=
  if strIn "Special Characters" path then ([], [])
  else
    match t with
    | .file _ => ([], [path])
    | .dir _ isRepoRoot children =>
      if isRepoRoot then ([path], [])
      else
        let results := children.attach.map
          (fun c => _do_get_git_repos (path ++ "/" ++ c.1.name) c.1)
        let repos := (results.map Prod.fst).flatten
        let outside_files := (results.map Prod.snd).flatten
        if repos.length ≠ 0 then (repos, outside_files) else (repos, [path])
decreasing_by
  simp only [FSEntry.dir.sizeOf_spec]
  have h1 := List.sizeOf_lt_of_mem c.2
  omega

/-- `_get_git_repos` (src/gitsum.py lines 49-61), the older variant: same
traversal, but non-directories and repo-free directories contribute
nothing (no outside-file collection).  `os.path.join` is modelled by the
same separator used above. -/
def _get_git_repos (path : String) (t : FSEntry) : List String :=
  if strIn "Special Characters" path then []
  else
    match t with
    | .file _ => []
    | .dir _ isRepoRoot children =>
      if isRepoRoot then [path]
      else
        (children.attach.map
          (fun c => _get_git_repos (path ++ "/" ++ c.1.name) c.1)).flatten
decreasing_by
  simp only [FSEntry.dir.sizeOf_spec]
  have h1 := List.sizeOf_lt_of_mem c.2
  omega

/-- Does the tree contain no repository root at all ("a directory tree
containing zero repositories")? -/
def noRepos : FSEntry → Bool
  | .file _ => true
  | .dir _ isRepoRoot children =>
    !isRepoRoot && children.attach.all (fun c => noRepos c.1)
decreasing_by
  simp only [FSEntry.dir.sizeOf_spec]
  have h1 := List.sizeOf_lt_of_mem c.2
  omega

/-- Formalises "every leaf entry of the tree at `path` lies inside some
repository discovered by the traversal": a subtree skipped by the
unprocessable-path quirk or rooted at a file has leaves outside every
discovered repository, a subtree rooted at a repository root lies wholly
inside that repository, an empty non-repo directory is itself a leaf
outside every repository, and a non-empty non-repo directory qualifies
exactly when all of its children do. -/
def everyLeafInRepo (path : String) (t : FSEntry) : Bool :=
  if strIn "Special Characters" path then false
  else
    match t with
    | .file _ => false
    | .dir _ isRepoRoot children =>
      if isRepoRoot then true
      else
        !children.isEmpty &&
          children.attach.all (fun c => everyLeafInRepo (path ++ "/" ++ c.1.name) c.1)
decreasing_by
  simp only [FSEntry.dir.sizeOf_spec]
  have h1 := List.sizeOf_lt_of_mem c.2
  omega

/-- The observable state of one repository, through the pygit2 calls made
by `get_status`/`_get_status`: the HEAD predicates, the hex id of the
commit HEAD points at, the current branch's shorthand, the remote name of
the current branch's upstream (`none` when `local_branch.upstream` is
`None`), whether `remote.fetch()` would succeed, the pair returned by
`repo.ahead_behind` on the local and upstream tips (commit counts, hence
`Nat`), `len(repo.remotes)` and `len(repo.status())`. -/
structure GitRepo where
  head_is_unborn : Bool
  head_is_detached : Bool
  head_target_hex : String
  head_shorthand : String
  upstream_remote_name : Option String
  fetch_succeeds : Bool
  ahead_behind : Nat × Nat
  remotes_len : Nat
  status_len : Nat
deriving DecidableEq

/-- The single-quote character, written by code point. -/
def squote : String :=
  String.mk [Char.ofNat 39]

/-- `_warn` (src/lib/gitsum.py lines 38-39): one line on standard error. -/
def _warn (msg : String) : String :=
  "WARN: " ++ msg

/-- `_try_fetch` (src/lib/gitsum.py lines 87-92): the `try/except` around
`remote.fetch()` is modelled by returning the emitted standard-error
lines instead of raising — a failed fetch yields one warning line and
never an exception. -/
def _try_fetch (fetch_succeeds : Bool) (repo_name : String) : List String :=
  if fetch_succeeds then []
  else [_warn ("Failed to fetch repo " ++ squote ++ repo_name ++ squote)]

/-- `_get_status` (src/lib/gitsum.py lines 95-114).  Returns the record
together with the standard-error lines produced while computing it. -/
def _get_status (repo : GitRepo) (name : String) (fetch : Bool) : RepoStatus × List String :=
  let is_local := !(decide (repo.remotes_len > 0))
  let has_changes := decide (repo.status_len > 0)
  if repo.head_is_unborn then
    (⟨name, "(no commits)", is_local, has_changes, false, 0, 0⟩, [])
  else if repo.head_is_detached then
    (⟨name, "(" ++ repo.head_target_hex.take 6 ++ ")", is_local, has_changes, false, 0, 0⟩, [])
  else
    match repo.upstream_remote_name with
    | none => (⟨name, repo.head_shorthand, is_local, has_changes, false, 0, 0⟩, [])
    | some _ =>
      let warns := if fetch then _try_fetch repo.fetch_succeeds name else []
      (⟨name, repo.head_shorthand, is_local, has_changes, true,
        repo.ahead_behind.1, repo.ahead_behind.2⟩, warns)

/-- `get_status` (src/gitsum.py lines 64-80), the older variant: same
derivation without the fetch option. -/
def get_status (repo : GitRepo) (name : String) : RepoStatus :=
  let is_local := !(decide (repo.remotes_len > 0))
  let has_changes := decide (repo.status_len > 0)
  if repo.head_is_unborn then
    ⟨name, "(no commits)", is_local, has_changes, false, 0, 0⟩
  else if repo.head_is_detached then
    ⟨name, "(" ++ repo.head_target_hex.take 6 ++ ")", is_local, has_changes, false, 0, 0⟩
  else
    match repo.upstream_remote_name with
    | none => ⟨name, repo.head_shorthand, is_local, has_changes, false, 0, 0⟩
    | some _ =>
      ⟨name, repo.head_shorthand, is_local, has_changes, true,
        repo.ahead_behind.1, repo.ahead_behind.2⟩

/-- Python's `max` over a list of numbers: raises `ValueError` on the
empty list (modelled as `none`), otherwise folds binary `max`. -/
def pymax : List Nat → Option Nat
  | [] => none
  | x :: xs => some (xs.foldl max x)

/-- One insertion step of a stable sort by `name`. -/
def insertByName (s : RepoStatus) : List RepoStatus → List RepoStatus
  | [] => [s]
  | t :: ts => if s.name ≤ t.name then s :: t :: ts else t :: insertByName s ts

/-- Python's stable `statuses.sort(key=lambda s: s.name)`. -/
def sortByName : List RepoStatus → List RepoStatus
  | [] => []
  | s :: ss => insertByName s (sortByName ss)

/-- The status-table part of `_get_git_summary` (src/lib/gitsum.py lines
117-126), parameterised by the discovered repositories paired with their
names (the outside-files listing is orthogonal to the table and omitted).
Returns the standard-output lines together with a crash flag: `true`
means an uncaught exception was raised after those lines were printed
(Python's `max([])` raising `ValueError`). -/
def _get_git_summary (repos : List (GitRepo × String)) (fetch : Bool)
    (only_outside_files : Bool) : List String × Bool :=
  if only_outside_files then ([], false)
  else
    let countLine := "Found " ++ toString repos.length ++ " Git repositories."
    let statuses := repos.map (fun p => (_get_status p.1 p.2 fetch).1)
    match pymax (statuses.map (fun s => s.name.length)),
        pymax (statuses.map (fun s => s.head.length)) with
    | some name_width, some head_width =>
      (countLine ::
        (sortByName statuses).map (fun s => s.to_string name_width head_width), false)
    | _, _ => ([countLine], true)

/-- Is `c` a (lowercase) hexadecimal digit, as produced by a git object
id's hex form? -/
def isHexChar (c : Char) : Bool :=
  ('0' ≤ c && c ≤ '9') || ('a' ≤ c && c ≤ 'f')

/-- A well-formed git commit id in hex form: 40 hexadecimal characters. -/
def isCommitHex (s : String) : Bool :=
  s.length == 40 && s.data.all isHexChar

/-! ### Helper lemmas -/

/-- Structural induction for `FSEntry` with a membership hypothesis for
the children of a directory. -/
def FSEntry.ind {motive : FSEntry → Prop}
    (hfile : ∀ n, motive (FSEntry.file n))
    (hdir : ∀ n b cs, (∀ c ∈ cs, motive c) → motive (FSEntry.dir n b cs)) :
    ∀ t, motive t
  | .file n => hfile n
  | .dir n b cs => hdir n b cs (fun c hc => FSEntry.ind hfile hdir c)
decreasing_by
  simp only [FSEntry.dir.sizeOf_spec]
  have h1 := List.sizeOf_lt_of_mem hc
  omega

theorem foldl_max_init_le (xs : List Nat) (a : Nat) : a ≤ xs.foldl max a := by
  induction xs generalizing a with
  | nil => exact Nat.le_refl a
  | cons y ys ih => exact Nat.le_trans (Nat.le_max_left a y) (ih (max a y))

theorem foldl_max_mem_le (xs : List Nat) : ∀ (a x : Nat), x ∈ xs → x ≤ xs.foldl max a := by
  induction xs with
  | nil =>
    intro a x hx
    cases hx
  | cons y ys ih =>
    intro a x hx
    rcases List.mem_cons.mp hx with h | h
    · subst h
      exact Nat.le_trans (Nat.le_max_right a x) (foldl_max_init_le ys (max a x))
    · exact ih (max a y) x h

/-- Python's `max` over a non-empty list bounds every element. -/
theorem pymax_is_ub {l : List Nat} {m : Nat} (h : pymax l = some m) :
    ∀ x ∈ l, x ≤ m := by
  match l with
  | [] => cases h
  | y :: ys =>
    simp only [pymax, Option.some.injEq] at h
    subst h
    intro x hx
    rcases List.mem_cons.mp hx with h | h
    · subst h
      exact foldl_max_init_le ys x
    · exact foldl_max_mem_le ys y x h

theorem length_padColumn (s : String) (w : Nat) (h : s.length ≤ w) :
    (padColumn s w).length = w := by
  simp only [padColumn, String.length_append]
  have hmk : (String.mk (List.replicate (w - s.length) ' ')).length = w - s.length := by
    show (List.replicate (w - s.length) ' ').length = w - s.length
    simp
  omega

theorem length_tagField (a b : Bool) : (tagField a b).length = 4 := by
  unfold tagField
  cases a <;> cases b <;> rfl

theorem length_aheadField (n : Nat) (h : n ≤ 9) : (aheadField n).length = 3 := by
  unfold aheadField
  interval_cases n <;> rfl

theorem length_behindField (n : Nat) (h : n ≤ 9) : (behindField n).length = 3 := by
  unfold behindField
  interval_cases n <;> rfl

/-- Rendered line length under sufficient column widths and single-digit
ahead/behind counts. -/
theorem length_to_string (s : RepoStatus) (nw hw : Nat)
    (hn : s.name.length ≤ nw) (hh : s.head.length ≤ hw)
    (ha : s.local_ahead ≤ 9) (hb : s.local_behind ≤ 9) :
    (s.to_string nw hw).length = nw + hw + 20 := by
  unfold RepoStatus.to_string
  have h1 : (if !s.is_up_to_date then "!" else " ").length = 1 := by
    split <;> rfl
  have h2 : (if s.has_changes then " *" else "  ").length = 2 := by
    split <;> rfl
  simp only [String.length_append, h1, h2, length_padColumn _ _ hn, length_padColumn _ _ hh,
    length_tagField, length_aheadField _ ha, length_behindField _ hb,
    show ("  " : String).length = 2 from rfl, show (" " : String).length = 1 from rfl]
  omega

/-! ### Claims -/

/-- C5: `is_up_to_date` returns true iff `has_changes` is false and
(`branch_has_upstream` is false or both `local_ahead` and `local_behind`
are zero) — src/lib/gitsum.py lines 24-29. -/
theorem is_up_to_date_iff (s : RepoStatus) :
    s.is_up_to_date = true ↔
      (s.has_changes = false ∧
        (s.branch_has_upstream = false ∨ (s.local_ahead = 0 ∧ s.local_behind = 0))) := by
  unfold RepoStatus.is_up_to_date
  cases s.has_changes <;> cases s.branch_has_upstream <;> simp

/-- C1: with zero discovered repositories, the summary prints
`Found 0 Git repositories.` and then crashes — Python's `max` raises
`ValueError` on the empty sequence of name lengths (src/lib/gitsum.py
line 123), so the claimed crash-free empty table is not produced. -/
theorem summary_zero_repos_crashes :
    _get_git_summary [] false false = (["Found 0 Git repositories."], true) := by
  decide

/-- C9: a path containing the unprocessable pattern `Special Characters`
is skipped entirely by discovery: no repositories, no outside entries,
and (the function being total) no error — src/lib/gitsum.py lines 48-49. -/
theorem special_characters_skipped (path : String) (t : FSEntry)
    (h : strIn "Special Characters" path = true) :
    _do_get_git_repos path t = ([], []) := by
  rw [_do_get_git_repos.eq_def, h]
  simp

/-- C9 witness: a concrete unprocessable directory is skipped. -/
theorem special_characters_skipped_w :
    strIn "Special Characters" "/work/Special Characters" = true ∧
      _do_get_git_repos "/work/Special Characters"
        (FSEntry.dir "Special Characters" true []) = ([], []) :=
  ⟨by decide, special_characters_skipped _ _ (by decide)⟩

theorem string_length_data (s : String) : s.length = s.data.length := rfl

/-- C2 (amended): for a non-empty status list whose ahead/behind counts
are all single-digit, rendering with the true maxima as widths gives
every line the same length, `name_width + head_width + 20`. -/
theorem to_string_alignment (l : List RepoStatus) (nw hw : Nat)
    (hnw : pymax (l.map (fun s => s.name.length)) = some nw)
    (hhw : pymax (l.map (fun s => s.head.length)) = some hw)
    (hdigits : ∀ s ∈ l, s.local_ahead ≤ 9 ∧ s.local_behind ≤ 9) :
    ∀ s ∈ l, (s.to_string nw hw).length = nw + hw + 20 := by
  intro s hs
  have hn : s.name.length ≤ nw :=
    pymax_is_ub hnw _ (List.mem_map_of_mem (fun s => s.name.length) hs)
  have hh : s.head.length ≤ hw :=
    pymax_is_ub hhw _ (List.mem_map_of_mem (fun s => s.head.length) hs)
  exact length_to_string s nw hw hn hh (hdigits s hs).1 (hdigits s hs).2

/-- C2 witness: a concrete singleton list rendered at its maxima. -/
theorem to_string_alignment_w :
    ((⟨"abc", "main", true, true, false, 0, 0⟩ : RepoStatus).to_string 3 4).length =
      3 + 4 + 20 :=
  to_string_alignment [⟨"abc", "main", true, true, false, 0, 0⟩] 3 4 (by decide) (by decide)
    (by decide) ⟨"abc", "main", true, true, false, 0, 0⟩ (by decide)

/-- C2 counterexample to the claim as stated: with the true maxima as
widths, a record 10 commits ahead renders one character longer than an
otherwise identical record 0 commits ahead, because ` >10` occupies four
characters against the three-space blank field. -/
theorem to_string_alignment_cex :
    pymax (([⟨"a", "m", false, false, true, 10, 0⟩, ⟨"a", "m", false, false, true, 0, 0⟩] :
        List RepoStatus).map (fun s => s.name.length)) = some 1 ∧
    pymax (([⟨"a", "m", false, false, true, 10, 0⟩, ⟨"a", "m", false, false, true, 0, 0⟩] :
        List RepoStatus).map (fun s => s.head.length)) = some 1 ∧
    ¬ (((⟨"a", "m", false, false, true, 10, 0⟩ : RepoStatus).to_string 1 1).length =
        ((⟨"a", "m", false, false, true, 0, 0⟩ : RepoStatus).to_string 1 1).length) := by
  decide

/-- C6: every record produced by `_get_status` has non-negative
ahead/behind counts (they are `Nat`), and when `branch_has_upstream` is
false both counts are zero — src/lib/gitsum.py lines 95-114. -/
theorem get_status_counts_invariant (repo : GitRepo) (name : String) (fetch : Bool) :
    0 ≤ ((_get_status repo name fetch).1).local_ahead ∧
    0 ≤ ((_get_status repo name fetch).1).local_behind ∧
    (((_get_status repo name fetch).1).branch_has_upstream = false →
      ((_get_status repo name fetch).1).local_ahead = 0 ∧
      ((_get_status repo name fetch).1).local_behind = 0) := by
  refine ⟨Nat.zero_le _, Nat.zero_le _, ?_⟩
  unfold _get_status
  cases hu : repo.head_is_unborn <;> cases hd : repo.head_is_detached <;>
    cases hup : repo.upstream_remote_name <;> simp

/-- C6 witness: a concrete repository with no upstream. -/
theorem get_status_counts_invariant_w :
    (_get_status ⟨false, false, "", "main", none, true, (0, 0), 0, 0⟩ "r" false).1.local_ahead =
      0 :=
  ((get_status_counts_invariant ⟨false, false, "", "main", none, true, (0, 0), 0, 0⟩
    "r" false).2.2 (by decide)).1

/-- C7: for an unborn HEAD the descriptor is `(no commits)`; for a
detached (non-unborn) HEAD over a well-formed 40-hex-character commit id,
the descriptor is `(` + the first six characters of the id + `)` — eight
characters whose middle six are hexadecimal — src/lib/gitsum.py
lines 98-101. -/
theorem get_status_head_descriptor (repo : GitRepo) (name : String) (fetch : Bool)
    (hhex : isCommitHex repo.head_target_hex = true) :
    (repo.head_is_unborn = true → ((_get_status repo name fetch).1).head = "(no commits)") ∧
    (repo.head_is_unborn = false → repo.head_is_detached = true →
      ((_get_status repo name fetch).1).head =
          "(" ++ repo.head_target_hex.take 6 ++ ")" ∧
        ((_get_status repo name fetch).1).head.length = 8 ∧
        ((_get_status repo name fetch).1).head.data.head? = some '(' ∧
        ((_get_status repo name fetch).1).head.data.getLast? = some ')' ∧
        ∀ c ∈ (((_get_status repo name fetch).1).head.data.drop 1).take 6,
          isHexChar c = true) := by
  have hx := hhex
  simp only [isCommitHex, Bool.and_eq_true, beq_iff_eq, List.all_eq_true] at hx
  obtain ⟨hlen, hall⟩ := hx
  constructor
  · intro hu
    unfold _get_status
    simp [hu]
  · intro hu hd
    have hhead : ((_get_status repo name fetch).1).head =
        "(" ++ repo.head_target_hex.take 6 ++ ")" := by
      unfold _get_status
      simp [hu, hd]
    have hdata6 : (repo.head_target_hex.take 6).data = repo.head_target_hex.data.take 6 :=
      String.data_take repo.head_target_hex 6
    have hlendata : repo.head_target_hex.data.length = 40 := by
      rw [← string_length_data]
      exact hlen
    have htklen : (repo.head_target_hex.take 6).length = 6 := by
      rw [string_length_data, hdata6, List.length_take, hlendata]
      decide
    have hcons : ((_get_status repo name fetch).1).head.data =
        '(' :: (List.take 6 repo.head_target_hex.data ++ [')']) := by
      rw [hhead]
      simp only [String.data_append, hdata6]
      rfl
    refine ⟨hhead, ?_, ?_, ?_, ?_⟩
    · rw [hhead]
      simp only [String.length_append, htklen]
      rfl
    · rw [hcons]
      rfl
    · rw [hcons]
      show (('(' :: List.take 6 repo.head_target_hex.data) ++ [')']).getLast? = some ')'
      exact List.getLast?_concat _
    · rw [hcons]
      intro c hc
      have hc2 : c ∈ List.take 6 repo.head_target_hex.data := by
        simp only [List.drop_succ_cons, List.drop_zero] at hc
        rw [List.take_append_of_le_length] at hc
        · rwa [List.take_take] at hc
        · rw [List.length_take, hlendata]
          decide
      exact hall c (List.take_subset 6 _ hc2)

/-- C7 witness: a concrete detached-HEAD repository. -/
theorem get_status_head_descriptor_w :
    ((_get_status ⟨false, true, "0123456789abcdef0123456789abcdef01234567", "", none, true,
        (0, 0), 0, 0⟩ "r" false).1).head.length = 8 :=
  ((get_status_head_descriptor ⟨false, true, "0123456789abcdef0123456789abcdef01234567", "",
      none, true, (0, 0), 0, 0⟩ "r" false (by decide)).2 rfl rfl).2.1

/-- Unpack `noRepos` at a directory node. -/
theorem noRepos_dir {n : String} {b : Bool} {cs : List FSEntry}
    (h : noRepos (FSEntry.dir n b cs) = true) :
    b = false ∧ ∀ c ∈ cs, noRepos c = true := by
  rw [noRepos.eq_def] at h
  simp only [Bool.and_eq_true, Bool.not_eq_true', List.all_eq_true] at h
  exact ⟨h.1, fun c hc => h.2 ⟨c, hc⟩ (List.mem_attach cs ⟨c, hc⟩)⟩

/-- A tree without repository roots yields no repositories, whatever the
path. -/
theorem noRepos_fst_nil (t : FSEntry) :
    ∀ path, noRepos t = true → (_do_get_git_repos path t).1 = [] := by
  induction t using FSEntry.ind with
  | hfile n =>
    intro path hno
    rw [_do_get_git_repos.eq_def]
    cases hs : strIn "Special Characters" path <;> simp [hs]
  | hdir n b cs ih =>
    intro path hno
    obtain ⟨hb, hcs⟩ := noRepos_dir hno
    subst hb
    rw [_do_get_git_repos.eq_def]
    cases hs : strIn "Special Characters" path with
    | true => simp [hs]
    | false =>
      simp only [hs, Bool.false_eq_true, if_false, if_neg]
      have hrepos : ((cs.attach.map
          (fun c => _do_get_git_repos (path ++ "/" ++ c.1.name) c.1)).map Prod.fst).flatten =
          ([] : List String) := by
        rw [List.flatten_eq_nil_iff]
        intro l hl
        rw [List.map_map] at hl
        obtain ⟨c, hcmem, rfl⟩ := List.mem_map.mp hl
        exact ih c.1 c.2 _ (hcs c.1 c.2)
      simp only [hrepos]
      simp

/-- C3 counterexample to the claim as stated: an empty directory named
with the unprocessable pattern contains zero repositories, yet discovery
returns no outside entry at all rather than the root itself. -/
theorem discovery_no_repos_cex :
    noRepos (FSEntry.dir "Special Characters" false []) = true ∧
    _do_get_git_repos "Special Characters" (FSEntry.dir "Special Characters" false []) ≠
      ([], ["Special Characters"]) := by
  constructor
  · simp +decide [noRepos]
  · have h : _do_get_git_repos "Special Characters"
        (FSEntry.dir "Special Characters" false []) = ([], []) := by
      simp +decide [_do_get_git_repos]
    rw [h]
    decide

/-- C3 (amended): for a tree containing zero repositories whose root path
does not contain the unprocessable pattern, discovery returns an empty
repository list and exactly one outside entry, the root itself —
src/lib/gitsum.py lines 46-62. -/
theorem discovery_no_repos (path : String) (t : FSEntry)
    (hpath : strIn "Special Characters" path = false)
    (hno : noRepos t = true) :
    _do_get_git_repos path t = ([], [path]) := by
  rw [_do_get_git_repos.eq_def]
  match t with
  | FSEntry.file n => simp [hpath]
  | FSEntry.dir n b cs =>
    obtain ⟨hb, hcs⟩ := noRepos_dir hno
    subst hb
    have hrepos : ((cs.attach.map
        (fun c => _do_get_git_repos (path ++ "/" ++ c.1.name) c.1)).map Prod.fst).flatten =
        ([] : List String) := by
      rw [List.flatten_eq_nil_iff]
      intro l hl
      rw [List.map_map] at hl
      obtain ⟨c, hcmem, rfl⟩ := List.mem_map.mp hl
      exact noRepos_fst_nil c.1 _ (hcs c.1 c.2)
    simp only [hpath, Bool.false_eq_true, if_false, if_neg]
    simp only [hrepos]
    simp

/-- C3 witness: a concrete empty directory with an ordinary name. -/
theorem discovery_no_repos_w :
    _do_get_git_repos "work" (FSEntry.dir "work" false [FSEntry.file "a.txt"]) =
      ([], ["work"]) :=
  discovery_no_repos "work" (FSEntry.dir "work" false [FSEntry.file "a.txt"]) (by decide)
    (by simp +decide [noRepos])

/-- When every leaf of a subtree lies inside a discovered repository, the
traversal of that subtree reports no outside entries and at least one
repository. -/
theorem everyLeaf_aux (t : FSEntry) : ∀ path, everyLeafInRepo path t = true →
    (_do_get_git_repos path t).2 = [] ∧ (_do_get_git_repos path t).1 ≠ [] := by
  induction t using FSEntry.ind with
  | hfile n =>
    intro path h
    rw [everyLeafInRepo.eq_def] at h
    cases hs : strIn "Special Characters" path <;> simp [hs] at h
  | hdir n b cs ih =>
    intro path h
    rw [everyLeafInRepo.eq_def] at h
    cases hs : strIn "Special Characters" path with
    | true => simp [hs] at h
    | false =>
      simp only [hs, Bool.false_eq_true, if_false] at h
      rw [_do_get_git_repos.eq_def]
      simp only [hs, Bool.false_eq_true, if_false]
      cases b with
      | true => simp
      | false =>
        simp only [Bool.false_eq_true, if_false, Bool.and_eq_true, Bool.not_eq_true',
          List.all_eq_true] at h
        obtain ⟨hne, hall⟩ := h
        have hne' : cs ≠ [] := by
          intro hnil
          rw [hnil] at hne
          simp at hne
        have hall' : ∀ c ∈ cs, everyLeafInRepo (path ++ "/" ++ c.name) c = true :=
          fun c hc => hall ⟨c, hc⟩ (List.mem_attach cs ⟨c, hc⟩)
        have houts : ((cs.attach.map
            (fun c => _do_get_git_repos (path ++ "/" ++ c.1.name) c.1)).map Prod.snd).flatten =
            ([] : List String) := by
          rw [List.flatten_eq_nil_iff]
          intro l hl
          rw [List.map_map] at hl
          obtain ⟨c, hcmem, rfl⟩ := List.mem_map.mp hl
          exact (ih c.1 c.2 _ (hall' c.1 c.2)).1
        have hrep : ((cs.attach.map
            (fun c => _do_get_git_repos (path ++ "/" ++ c.1.name) c.1)).map Prod.fst).flatten ≠
            ([] : List String) := by
          obtain ⟨c0, rest, rfl⟩ := List.exists_cons_of_ne_nil hne'
          intro hcontra
          rw [List.flatten_eq_nil_iff] at hcontra
          have hmem0 : c0 ∈ c0 :: rest := List.mem_cons_self c0 rest
          apply (ih c0 hmem0 (path ++ "/" ++ c0.name) (hall' c0 hmem0)).2
          apply hcontra
          rw [List.map_map]
          exact List.mem_map.mpr ⟨⟨c0, hmem0⟩, List.mem_attach _ _, rfl⟩
        have hcond : (((cs.attach.map
            (fun c => _do_get_git_repos (path ++ "/" ++ c.1.name) c.1)).map
              Prod.fst).flatten).length ≠ 0 :=
          fun h0 => hrep (List.length_eq_zero.mp h0)
        rw [if_pos hcond]
        exact ⟨houts, hrep⟩

/-- C4: in a tree where every leaf entry lies inside some discovered
repository, discovery returns an empty outside-entries list —
src/lib/gitsum.py lines 46-62. -/
theorem discovery_all_leaves_covered (path : String) (t : FSEntry)
    (h : everyLeafInRepo path t = true) :
    (_do_get_git_repos path t).2 = [] :=
  (everyLeaf_aux t path h).1

/-- C4 witness: a directory whose only child is a repository root. -/
theorem discovery_all_leaves_covered_w :
    (_do_get_git_repos "work" (FSEntry.dir "work" false [FSEntry.dir "proj" true []])).2 =
      [] :=
  discovery_all_leaves_covered "work" (FSEntry.dir "work" false [FSEntry.dir "proj" true []])
    (by simp +decide [everyLeafInRepo, List.attach, List.attachWith])

/-- C8: for a repository with an upstream whose fetch fails under
`fetch = true`, `_get_status` emits exactly the warning line
`WARN: Failed to fetch repo '<name>'` on standard error, still returns a
record whose ahead/behind counts are the `repo.ahead_behind` divergence
of the existing local refs, and — the functions being total — a whole run
over any repository list containing this repository still completes
without crashing — src/lib/gitsum.py lines 87-92 and 106-111. -/
theorem get_status_fetch_warning (repo : GitRepo) (name rn : String)
    (hu : repo.head_is_unborn = false) (hd : repo.head_is_detached = false)
    (hup : repo.upstream_remote_name = some rn) (hf : repo.fetch_succeeds = false) :
    (_get_status repo name true).2 =
        ["WARN: Failed to fetch repo " ++ squote ++ name ++ squote] ∧
      ((_get_status repo name true).1).local_ahead = repo.ahead_behind.1 ∧
      ((_get_status repo name true).1).local_behind = repo.ahead_behind.2 ∧
      ∀ others : List (GitRepo × String), (repo, name) ∈ others →
        (_get_git_summary others true false).2 = false := by
  refine ⟨?_, ?_, ?_, ?_⟩
  · unfold _get_status _try_fetch _warn
    simp [hu, hd, hup, hf]
    rfl
  · unfold _get_status
    simp [hu, hd, hup]
  · unfold _get_status
    simp [hu, hd, hup]
  · intro others hmem
    obtain ⟨o, os, rfl⟩ := List.exists_cons_of_ne_nil (List.ne_nil_of_mem hmem)
    rfl

/-- C8 witness: a concrete repository whose fetch fails. -/
theorem get_status_fetch_warning_w :
    (_get_status ⟨false, false, "", "main", some "origin", false, (3, 1), 1, 0⟩ "r" true).2 =
      ["WARN: Failed to fetch repo " ++ squote ++ "r" ++ squote] :=
  (get_status_fetch_warning ⟨false, false, "", "main", some "origin", false, (3, 1), 1, 0⟩
    "r" "origin" rfl rfl rfl rfl).1

/-- C10: the older variant agrees with the newer one — the old
`_get_git_repos` (src/gitsum.py) returns exactly the repository component
of the new `_do_get_git_repos` (src/lib/gitsum.py), and the old
`get_status` returns exactly the record computed by the new `_get_status`
with `fetch = False`. -/
theorem variants_agree :
    (∀ (path : String) (t : FSEntry),
      _get_git_repos path t = (_do_get_git_repos path t).1) ∧
    (∀ (repo : GitRepo) (name : String),
      get_status repo name = (_get_status repo name false).1) := by
  constructor
  · intro path t
    induction t using FSEntry.ind generalizing path with
    | hfile n =>
      rw [_get_git_repos.eq_def, _do_get_git_repos.eq_def]
      cases hs : strIn "Special Characters" path <;> simp [hs]
    | hdir n b cs ih =>
      rw [_get_git_repos.eq_def, _do_get_git_repos.eq_def]
      cases hs : strIn "Special Characters" path with
      | true => simp [hs]
      | false =>
        cases b with
        | true => simp [hs]
        | false =>
          simp only [hs, Bool.false_eq_true, if_false]
          have hmaps : cs.attach.map (fun c => _get_git_repos (path ++ "/" ++ c.1.name) c.1) =
              (cs.attach.map
                (fun c => _do_get_git_repos (path ++ "/" ++ c.1.name) c.1)).map Prod.fst := by
            rw [List.map_map]
            exact List.map_congr_left (fun c _ => ih c.1 c.2 (path ++ "/" ++ c.1.name))
          rw [hmaps]
          split <;> rfl
  · intro repo name
    unfold get_status _get_status
    cases hu : repo.head_is_unborn <;> cases hd : repo.head_is_detached <;>
      cases hup : repo.upstream_remote_name <;> simp [hup]
